import Mathlib

/-!
Shallow embedding of `include/glow/Base/Type.h` (the glow tensor-type
descriptor) and proofs about it.

Machine integers: the dimension values and the products computed by
`Type::size()` and `flattenCdr` are C++ `size_t`; multiplication wraps
modulo `2 ^ 64` on the LP64 platforms glow targets, so every
multiply-accumulate step is taken modulo `sizeTMod` below.
-/

namespace Glow

/-- `constexpr unsigned max_tensor_dimensions = 6;` -/
def max_tensor_dimensions : Nat := 6

/-- `2 ^ 64`: one more than the largest `size_t` value on the LP64
platforms glow targets; `size_t` arithmetic is taken modulo this. -/
def sizeTMod : Nat := 2 ^ 64

/-- `sizeof(size_t)` on the LP64 platforms glow targets. -/
def sizeof_size_t : Nat := 8

/-- `enum class ElemKind : unsigned char`, embedded as the underlying
integer value so that out-of-range values (possible through casts on the
`unsigned char` carrier) are representable.  The five declared variants
are the values `0`..`4` below. -/
abbrev ElemKind := Nat

def ElemKind.FloatTy : ElemKind := 0

def ElemKind.DoubleTy : ElemKind := 1

def ElemKind.Int8Ty : ElemKind := 2

def ElemKind.Int32Ty : ElemKind := 3

def ElemKind.IndexTy : ElemKind := 4

/-- `struct ShapeNHWC`: four named `size_t` fields.  The positional
constructor `ShapeNHWC(samples, height, width, channels)` is the
structure constructor `ShapeNHWC.mk`. -/
structure ShapeNHWC where
  n : Nat
  h : Nat
  w : Nat
  c : Nat
deriving DecidableEq

/-- `ShapeNHWC(llvm::ArrayRef<size_t> shape)`: asserts
`shape.size() == 4` (embedded as `none` on violation) and then reads
`shape[0]`..`shape[3]` into the fields `n`, `h`, `w`, `c`. -/
def ShapeNHWC.ofShape (shape : List Nat) : Option ShapeNHWC :=
  if shape.length = 4 then
    some ⟨shape.getD 0 0, shape.getD 1 0, shape.getD 2 0, shape.getD 3 0⟩
  else
    none

/-- `ShapeNHWC::equals`: field-wise comparison.  `operator==` on
`ShapeNHWC` forwards to this. -/
def ShapeNHWC.equals (a other : ShapeNHWC) : Bool :=
  a.n == other.n && a.h == other.h && a.w == other.w && a.c == other.c

/-- The multiply-accumulate loop `for (...) r *= xs[i];` shared by
`flattenCdr` (accumulating over `dims[2..]`) and `Type::size()`
(accumulating over `sizes_[0..numSizes_-1]`), with `size_t`
multiplication wrapping modulo `sizeTMod`. -/
def foldMulMod : Nat → List Nat → Nat
  | r, [] => r
  | r, d :: ds => foldMulMod (r * d % sizeTMod) ds

/-- `flattenCdr(llvm::ArrayRef<size_t> dims)`: asserts
`dims.size() > 1` (embedded as `none` on violation), then returns
`(dims[0], dims[1] * dims[2] * ... )`. -/
def flattenCdr (dims : List Nat) : Option (Nat × Nat) :=
  match dims with
  | d0 :: d1 :: rest => some (d0, foldMulMod d1 rest)
  | _ => none

/-- `struct Type` (renamed: `Type` is reserved in Lean).  `sizes_` is the
inline array `size_t sizes_[max_tensor_dimensions]`, embedded as a list
that the constructors always build with length `max_tensor_dimensions`;
`numSizes_` is the populated-dimension count; `elementType_` the element
kind. -/
structure GlowType where
  sizes_ : List Nat
  numSizes_ : Nat
  elementType_ : ElemKind
deriving DecidableEq

/-- `Type() = default;`: the default member initializers give a
zero-filled `sizes_` array, `numSizes_ = 0` and
`elementType_ = ElemKind::IndexTy`. -/
def defaultType : GlowType :=
  { sizes_ := List.replicate max_tensor_dimensions 0
    numSizes_ := 0
    elementType_ := ElemKind.IndexTy }

/-- The constructor loop `for (i = 0; i < dims.size(); i++)
sizes_[i] = dims[i];`: writes the elements of `dims` into `store`
starting at index `i`. -/
def copyDims : List Nat → Nat → List Nat → List Nat
  | store, _, [] => store
  | store, i, d :: ds => copyDims (store.set i d) (i + 1) ds

/-- `Type(ElemKind elemTy, llvm::ArrayRef<size_t> dims)`: asserts
`dims.size() < max_tensor_dimensions` (embedded as `none` on violation),
starts from the zero-filled member-initialized `sizes_` array, copies
`dims` into it, and records `numSizes_ = dims.size()`. -/
def mkType (elemTy : ElemKind) (dims : List Nat) : Option GlowType :=
  if dims.length < max_tensor_dimensions then
    some
      { sizes_ := copyDims (List.replicate max_tensor_dimensions 0) 0 dims
        numSizes_ := dims.length
        elementType_ := elemTy }
  else
    none

/-- `Type::isEqual(const Type &other)`: element type, then dimension
count, then the populated `sizes_` entries pairwise.  `operator==` on
`Type` forwards to this. -/
def isEqual (a other : GlowType) : Bool :=
  if a.elementType_ != other.elementType_ then
    false
  else if a.numSizes_ != other.numSizes_ then
    false
  else
    (List.range a.numSizes_).all fun i => a.sizes_.getD i 0 == other.sizes_.getD i 0

/-- `Type::dims()`: the ArrayRef `{sizes_, numSizes_}`, i.e. the first
`numSizes_` entries of the storage. -/
def GlowType.dims (t : GlowType) : List Nat :=
  t.sizes_.take t.numSizes_

/-- `Type::size()`: `0` when `numSizes_ == 0`, otherwise the
(wrapping, `size_t`) product of `sizes_[0..numSizes_-1]` starting from
`s = 1`. -/
def GlowType.size (t : GlowType) : Nat :=
  if t.numSizes_ = 0 then 0
  else foldMulMod 1 (t.sizes_.take t.numSizes_)

/-- Modelled from the spec: `glow_unreachable()` comes from
`glow/Support/Compiler.h`, which is not among the provided sources; per
the spec, reaching it is a fatal abort ("the system must fail fast and
loudly (abort or unrecoverable panic)").  Embedded as `none`, the
no-result outcome. -/
def glow_unreachable : Option Nat := none

/-- `Type::getElementSize(ElemKind Ty)` (static): exhaustive switch over
the five declared variants returning `sizeof` of the native type, with
`glow_unreachable()` after the switch. -/
def getElementSize (Ty : ElemKind) : Option Nat :=
  match Ty with
  | 0 => some 4
  | 1 => some 8
  | 2 => some 1
  | 3 => some 4
  | 4 => some sizeof_size_t
  | _ => glow_unreachable

/-- The local array `const char *names[] = {"float", "double", "i8",
"i32", "index"};` in `Type::getElementName`. -/
def elementNames : List String := ["float", "double", "i8", "i32", "index"]

/-- `Type::getElementName(ElemKind Ty)` (static): returns
`names[(int)Ty]` with no bounds check; for an out-of-range kind the
index is past the end of the five-element array, so there is no defined
entry (`none`). -/
def getElementName (Ty : ElemKind) : Option String :=
  elementNames[Ty]?

/-! ### Helper lemmas -/

theorem sizeTMod_pos : 0 < sizeTMod := by decide

/-- The constructor's copy loop, run over a zero prefix-extended store:
it overwrites the leading zeros with `ds` and leaves the trailing zeros
in place. -/
theorem copyDims_append (ds : List Nat) : ∀ (pre : List Nat) (n : Nat), ds.length ≤ n →
    copyDims (pre ++ List.replicate n 0) pre.length ds =
      pre ++ ds ++ List.replicate (n - ds.length) 0 := by
  induction ds with
  | nil =>
    intro pre n _
    simp [copyDims]
  | cons d ds ih =>
    intro pre n hlen
    have hlen' : ds.length + 1 ≤ n := by simpa using hlen
    obtain ⟨n', rfl⟩ : ∃ n', n = n' + 1 := ⟨n - 1, by omega⟩
    have h1 : (pre ++ List.replicate (n' + 1) 0).set pre.length d =
        (pre ++ [d]) ++ List.replicate n' 0 := by
      rw [List.set_append_right _ _ (Nat.le_refl _), Nat.sub_self, List.replicate_succ]
      simp [List.set]
    calc copyDims (pre ++ List.replicate (n' + 1) 0) pre.length (d :: ds)
        = copyDims ((pre ++ [d]) ++ List.replicate n' 0) ((pre ++ [d]).length) ds := by
          rw [copyDims, h1]
          congr 1
          simp
      _ = (pre ++ [d]) ++ ds ++ List.replicate (n' - ds.length) 0 :=
          ih _ _ (by omega)
      _ = pre ++ (d :: ds) ++ List.replicate (n' + 1 - (d :: ds).length) 0 := by
          simp [List.append_assoc]

/-- Closed form of the `(kind, dims)` constructor when its precondition
holds: `dims` followed by the untouched zero-initialized tail. -/
theorem mkType_eq (k : ElemKind) (ds : List Nat) (h : ds.length < max_tensor_dimensions) :
    mkType k ds =
      some
        { sizes_ := ds ++ List.replicate (max_tensor_dimensions - ds.length) 0
          numSizes_ := ds.length
          elementType_ := k } := by
  have h0 := copyDims_append ds [] max_tensor_dimensions (Nat.le_of_lt h)
  simp only [List.nil_append, List.length_nil] at h0
  unfold mkType
  rw [if_pos h, h0]

/-- The multiply-accumulate loop computes the wrapped product. -/
theorem foldMulMod_eq (ds : List Nat) : ∀ r : Nat, r < sizeTMod →
    foldMulMod r ds = r * ds.prod % sizeTMod := by
  induction ds with
  | nil =>
    intro r hr
    simp [foldMulMod, Nat.mod_eq_of_lt hr]
  | cons d ds ih =>
    intro r hr
    rw [foldMulMod, ih _ (Nat.mod_lt _ sizeTMod_pos), Nat.mod_mul_mod, List.prod_cons,
      ← Nat.mul_assoc]

/-- Propositional characterization of `Type::isEqual`. -/
theorem isEqual_iff (a b : GlowType) :
    isEqual a b = true ↔
      (a.elementType_ = b.elementType_ ∧ a.numSizes_ = b.numSizes_ ∧
        ∀ i < a.numSizes_, a.sizes_.getD i 0 = b.sizes_.getD i 0) := by
  unfold isEqual
  rcases eq_or_ne a.elementType_ b.elementType_ with h1 | h1
  · rcases eq_or_ne a.numSizes_ b.numSizes_ with h2 | h2
    · simp [h1, h2, List.all_eq_true, List.mem_range]
    · simp [h1, h2]
  · simp [h1]

/-! ### Claim theorems -/

/-- C1: `Type::isEqual` (and `operator==`, which forwards to it) returns
`true` iff the element kinds are equal, the dimension counts are equal,
and every populated dimension value is pairwise equal in order; in
particular two types with the same kind and dims `[2,3]` vs `[2,3,1]`
compare unequal, and the contents of storage slots at indices at or
beyond `numSizes_` never affect the result. -/
theorem isEqual_spec :
    (∀ a b : GlowType, isEqual a b = true ↔
        (a.elementType_ = b.elementType_ ∧ a.numSizes_ = b.numSizes_ ∧
          ∀ i < a.numSizes_, a.sizes_.getD i 0 = b.sizes_.getD i 0)) ∧
    ((mkType ElemKind.FloatTy [2, 3]).bind
        (fun a => (mkType ElemKind.FloatTy [2, 3, 1]).map (fun b => isEqual a b)) =
      some false) ∧
    (∀ a a' b : GlowType, a.elementType_ = a'.elementType_ → a.numSizes_ = a'.numSizes_ →
        (∀ i < a.numSizes_, a.sizes_.getD i 0 = a'.sizes_.getD i 0) →
        isEqual a b = isEqual a' b) := by
  refine ⟨isEqual_iff, by decide, ?_⟩
  intro a a' b h1 h2 h3
  rw [h2] at h3
  apply Bool.eq_iff_iff.mpr
  rw [isEqual_iff, isEqual_iff, h1, h2]
  constructor
  · rintro ⟨e1, e2, e3⟩
    exact ⟨e1, e2, fun i hi => ((h3 i hi).symm).trans (e3 i hi)⟩
  · rintro ⟨e1, e2, e3⟩
    exact ⟨e1, e2, fun i hi => (h3 i hi).trans (e3 i hi)⟩

theorem isEqual_spec_witness : isEqual defaultType defaultType = true :=
  (isEqual_spec.1 defaultType defaultType).mpr ⟨rfl, rfl, fun _ _ => rfl⟩

/-- C2 counterexample: the type constructed from the valid dimension
sequence `[0]` has `numSizes_ = 1 ≠ 0` yet `size() = 0`, so "`size()`
is 0 exactly when `numDims` is 0" fails in the only-if direction. -/
theorem size_zero_iff_counterexample :
    ¬ ∀ t : GlowType, mkType ElemKind.FloatTy [0] = some t → (t.size = 0 ↔ t.numSizes_ = 0) := by
  intro hall
  have h := hall ⟨[0, 0, 0, 0, 0, 0], 1, ElemKind.FloatTy⟩ (by decide)
  have h10 : (1 : Nat) = 0 := h.mp (by decide)
  exact absurd h10 (by decide)

/-- C2 (amended): for every validly constructed type, `size()` is `0`
when `numSizes_ = 0` (the explicit special case, not the empty-product
convention of 1), and otherwise equals the product of the populated
dimension sizes reduced modulo `2 ^ 64` (`size_t` arithmetic); since a
populated dimension may itself be `0`, `size() = 0` does not conversely
imply `numSizes_ = 0`. -/
theorem size_spec (k : ElemKind) (ds : List Nat) (h : ds.length < max_tensor_dimensions) :
    ∃ t, mkType k ds = some t ∧
      t.size = (if ds.length = 0 then 0 else ds.prod % sizeTMod) := by
  refine ⟨_, mkType_eq k ds h, ?_⟩
  unfold GlowType.size
  dsimp only
  rw [List.take_left' rfl, foldMulMod_eq ds 1 (by decide), Nat.one_mul]

theorem size_spec_witness :
    ∃ t, mkType ElemKind.FloatTy [7, 3, 4, 2] = some t ∧
      t.size = (if ([7, 3, 4, 2] : List Nat).length = 0 then 0
        else ([7, 3, 4, 2] : List Nat).prod % sizeTMod) :=
  size_spec ElemKind.FloatTy [7, 3, 4, 2] (by decide)

/-- C3: for every kind `k` and dimension sequence `ds` with
`ds.length < max_tensor_dimensions`, the constructed type reports
exactly `ds` through `dims()` (same length, values and order) and `k`
through `getElementType()`. -/
theorem construct_dims_spec (k : ElemKind) (ds : List Nat)
    (h : ds.length < max_tensor_dimensions) :
    ∃ t, mkType k ds = some t ∧ t.dims = ds ∧ t.elementType_ = k := by
  refine ⟨_, mkType_eq k ds h, ?_, rfl⟩
  unfold GlowType.dims
  dsimp only
  exact List.take_left' rfl

theorem construct_dims_spec_witness :
    ∃ t, mkType ElemKind.Int8Ty [2, 3] = some t ∧ t.dims = [2, 3] ∧
      t.elementType_ = ElemKind.Int8Ty :=
  construct_dims_spec ElemKind.Int8Ty [2, 3] (by decide)

/-- C4: constructing from a dimension sequence of length at least
`max_tensor_dimensions` (6) trips the assertion (no result, never a
silent truncation), while every sequence of length
`max_tensor_dimensions - 1` (5) constructs successfully. -/
theorem construct_precondition_spec :
    (∀ (k : ElemKind) (ds : List Nat), max_tensor_dimensions ≤ ds.length →
      mkType k ds = none) ∧
    (∀ (k : ElemKind) (ds : List Nat), ds.length = max_tensor_dimensions - 1 →
      (mkType k ds).isSome = true) := by
  have h6 : max_tensor_dimensions = 6 := rfl
  constructor
  · intro k ds h
    unfold mkType
    rw [if_neg (by omega)]
  · intro k ds h
    rw [mkType_eq k ds (by omega)]
    rfl

theorem construct_precondition_spec_witness :
    mkType ElemKind.FloatTy [1, 1, 1, 1, 1, 1] = none ∧
      (mkType ElemKind.FloatTy [1, 1, 1, 1, 1]).isSome = true :=
  ⟨construct_precondition_spec.1 _ _ (by decide),
    construct_precondition_spec.2 _ _ (by decide)⟩

/-- C5: for every dimension sequence of `size_t` values with length at
least 2, `flattenCdr` returns the pair of the first dimension and the
(`size_t`, i.e. modulo `2 ^ 64`) product of the remaining dimensions;
on a sequence of length less than 2 the assertion trips (no result). -/
theorem flattenCdr_spec :
    (∀ ds : List Nat, 2 ≤ ds.length → (∀ d ∈ ds, d < sizeTMod) →
      flattenCdr ds = some (ds.getD 0 0, ds.tail.prod % sizeTMod)) ∧
    (∀ ds : List Nat, ds.length < 2 → flattenCdr ds = none) := by
  constructor
  · intro ds h2 hall
    match ds with
    | d0 :: d1 :: rest =>
      have hd1 : d1 < sizeTMod := hall d1 (by simp)
      show some (d0, foldMulMod d1 rest) = _
      rw [foldMulMod_eq rest d1 hd1]
      simp
  · intro ds h2
    match ds with
    | [] => rfl
    | [d] => rfl
    | a :: b :: r => simp at h2; omega

theorem flattenCdr_spec_witness :
    flattenCdr [7, 3, 4, 2] = some (7, 24) ∧ flattenCdr [5] = none := by
  constructor
  · have h := flattenCdr_spec.1 [7, 3, 4, 2] (by decide) (by decide)
    simpa [sizeTMod] using h
  · exact flattenCdr_spec.2 [5] (by decide)

/-- C6: the element metadata lookups return exactly the table values
for the five declared kinds — float `(4, "float")`, double
`(8, "double")`, i8 `(1, "i8")`, i32 `(4, "i32")`, index
`(sizeof(size_t), "index")`; every kind in the closed set has a
positive byte size and a non-empty name; and both lookups are pure, so
two calls with the same kind yield identical results. -/
theorem element_metadata_spec :
    (getElementSize ElemKind.FloatTy = some 4 ∧
      getElementName ElemKind.FloatTy = some ("float") ∧
      getElementSize ElemKind.DoubleTy = some 8 ∧
      getElementName ElemKind.DoubleTy = some ("double") ∧
      getElementSize ElemKind.Int8Ty = some 1 ∧
      getElementName ElemKind.Int8Ty = some ("i8") ∧
      getElementSize ElemKind.Int32Ty = some 4 ∧
      getElementName ElemKind.Int32Ty = some ("i32") ∧
      getElementSize ElemKind.IndexTy = some sizeof_size_t ∧
      getElementName ElemKind.IndexTy = some ("index")) ∧
    (∀ k : ElemKind, k < 5 →
      ∃ s nm, getElementSize k = some s ∧ 0 < s ∧ getElementName k = some nm ∧ nm ≠ ("")) ∧
    (∀ k : ElemKind, getElementSize k = getElementSize k ∧
      getElementName k = getElementName k) := by
  refine ⟨⟨rfl, rfl, rfl, rfl, rfl, rfl, rfl, rfl, rfl, rfl⟩, ?_, fun k => ⟨rfl, rfl⟩⟩
  intro k hk
  interval_cases k
  · exact ⟨4, "float", rfl, by decide, rfl, by decide⟩
  · exact ⟨8, "double", rfl, by decide, rfl, by decide⟩
  · exact ⟨1, "i8", rfl, by decide, rfl, by decide⟩
  · exact ⟨4, "i32", rfl, by decide, rfl, by decide⟩
  · exact ⟨sizeof_size_t, "index", rfl, by decide, rfl, by decide⟩

theorem element_metadata_spec_witness :
    ∃ s nm, getElementSize 2 = some s ∧ 0 < s ∧ getElementName 2 = some nm ∧ nm ≠ ("") :=
  element_metadata_spec.2.1 2 (by decide)

/-- C7: at the out-of-range kind value 5, `getElementSize` reaches
`glow_unreachable()` (the fatal abort, modelled from the spec), but
`getElementName` merely indexes `names[5]` with no bounds check: the
five-element `names` array has no entry there, so the read is out of
bounds — undefined behavior, not a guaranteed abort. -/
theorem element_lookup_out_of_range :
    getElementSize 5 = glow_unreachable ∧ getElementName 5 = none ∧
      elementNames.length = 5 :=
  ⟨rfl, rfl, rfl⟩

/-- C8: a default-constructed type has `numSizes_ = 0`, element kind
`ElemKind::IndexTy`, `size() = 0`, and compares unequal (in both
argument orders) to every type with `numSizes_ > 0`, whatever either
element kind is. -/
theorem default_type_spec :
    defaultType.numSizes_ = 0 ∧ defaultType.elementType_ = ElemKind.IndexTy ∧
    defaultType.size = 0 ∧
    (∀ t : GlowType, 0 < t.numSizes_ →
      isEqual defaultType t = false ∧ isEqual t defaultType = false) := by
  refine ⟨rfl, rfl, rfl, ?_⟩
  intro t ht
  have hd : defaultType.numSizes_ = 0 := rfl
  constructor
  · apply Bool.eq_false_iff.mpr
    intro hcontra
    obtain ⟨-, h2, -⟩ := (isEqual_iff _ _).mp hcontra
    omega
  · apply Bool.eq_false_iff.mpr
    intro hcontra
    obtain ⟨-, h2, -⟩ := (isEqual_iff _ _).mp hcontra
    omega

theorem default_type_spec_witness :
    isEqual defaultType ⟨[5, 0, 0, 0, 0, 0], 1, ElemKind.FloatTy⟩ = false ∧
      isEqual ⟨[5, 0, 0, 0, 0, 0], 1, ElemKind.FloatTy⟩ defaultType = false :=
  default_type_spec.2.2.2 ⟨[5, 0, 0, 0, 0, 0], 1, ElemKind.FloatTy⟩ (by decide)

/-- C9: `ShapeNHWC` built from the four positional values equals (per
field) `ShapeNHWC` built from the 4-element sequence of the same
values; building from a sequence whose length is not 4 trips the
assertion (no result); and `equals` (to which `operator==` forwards)
holds iff all four fields are pairwise equal. -/
theorem shapeNHWC_spec :
    (∀ n h w c : Nat, ShapeNHWC.ofShape [n, h, w, c] = some (ShapeNHWC.mk n h w c)) ∧
    (∀ shape : List Nat, shape.length ≠ 4 → ShapeNHWC.ofShape shape = none) ∧
    (∀ a b : ShapeNHWC, a.equals b = true ↔
      (a.n = b.n ∧ a.h = b.h ∧ a.w = b.w ∧ a.c = b.c)) := by
  refine ⟨fun n h w c => rfl, ?_, ?_⟩
  · intro shape hne
    unfold ShapeNHWC.ofShape
    rw [if_neg hne]
  · intro a b
    unfold ShapeNHWC.equals
    simp [Bool.and_eq_true, and_assoc]

theorem shapeNHWC_spec_witness :
    ShapeNHWC.ofShape [2, 3, 4, 5] = some (ShapeNHWC.mk 2 3 4 5) ∧
      ShapeNHWC.ofShape [2, 3, 4] = none :=
  ⟨shapeNHWC_spec.1 2 3 4 5, shapeNHWC_spec.2.1 [2, 3, 4] (by decide)⟩

/-- C10: in every type either constructor produces, the storage slots
at indices at or beyond `numSizes_` hold `0` (the default member
initializer zero-fills the array and the constructor loop overwrites
only the first `dims.length` slots), and construction from a given kind
and dimension sequence is deterministic: any two types it produces have
identical stored representations, not merely equal query results. -/
theorem storage_zero_fill_spec :
    (∀ j : Nat, defaultType.sizes_.getD j 0 = 0) ∧
    (∀ (k : ElemKind) (ds : List Nat), ds.length < max_tensor_dimensions →
      ∃ t, mkType k ds = some t ∧ (∀ j, t.numSizes_ ≤ j → t.sizes_.getD j 0 = 0) ∧
        ∀ t' : GlowType, mkType k ds = some t' → t' = t) := by
  constructor
  · intro j
    rcases Nat.lt_or_ge j max_tensor_dimensions with hj | hj
    · rw [List.getD_eq_getElem _ _ (by simpa using hj)]
      simp [defaultType]
    · rw [List.getD_eq_default _ _ (by simpa using hj)]
  · intro k ds h
    refine ⟨_, mkType_eq k ds h, ?_, ?_⟩
    · intro j hj
      dsimp only at hj ⊢
      rw [List.getD_append_right _ _ _ _ hj]
      rcases Nat.lt_or_ge (j - ds.length) (max_tensor_dimensions - ds.length) with hj2 | hj2
      · rw [List.getD_eq_getElem _ _ (by simpa using hj2)]
        simp
      · rw [List.getD_eq_default _ _ (by simpa using hj2)]
    · intro t' ht'
      rw [mkType_eq k ds h] at ht'
      exact Option.some.inj ht'.symm

theorem storage_zero_fill_spec_witness :
    ∃ t, mkType ElemKind.Int32Ty [4, 5] = some t ∧
      (∀ j, t.numSizes_ ≤ j → t.sizes_.getD j 0 = 0) ∧
      ∀ t' : GlowType, mkType ElemKind.Int32Ty [4, 5] = some t' → t' = t :=
  storage_zero_fill_spec.2 ElemKind.Int32Ty [4, 5] (by decide)

end Glow
